import Mathlib

/-!
Shallow embedding of the schoolsite notification core:
audience resolver (`buildRecipientQuery`), delivery-time role override
(`sendNotificationNow`), scheduled-time validation (`parseValidScheduledAt`),
target defaulting in `createNotification`, the delivery engine's item
persistence / dedupe / fan-out order, the socket connection registry, the
scheduled-notification worker tick, and `markAsRead`.
All definitions are translated from the JavaScript source
(`controller/notification.js`, `config/socket.js`,
`scheduler/notificationSchedule.js`).
-/

/-- `normalizeDept` from controller/notification.js: trim and lower-case a
department string. -/
def normalizeDept (d : String) : String := d.trim.toLower

/-- `normalizeRole` from controller/notification.js: lower-case a role string
(the `r || ""` fallback is the empty string for an absent role). -/
def normalizeRole (r : String) : String := r.toLower

/-- A notification `target` as consumed by `buildRecipientQuery`.
Absent JS fields behave exactly as `false` / `[]` under the truthiness and
`Array.isArray(..) && length > 0` checks the code performs, so they are
modelled by those defaults. -/
structure Target where
  all : Bool := false
  roles : List String := []
  studentsOnly : Bool := false
  staffOnly : Bool := false
  departments : List String := []
  levels : List Int := []
deriving DecidableEq, Repr

/-- The value stored under `q.role` in the Mongo recipient query:
absent, a single role string, or an `$in` list. -/
inductive RoleFilter where
  | any : RoleFilter
  | one : String → RoleFilter
  | anyOf : List String → RoleFilter
deriving DecidableEq, Repr

/-- The value stored under `q.department`: a single normalized string or an
`$in` list of normalized strings. -/
inductive DeptFilter where
  | one : String → DeptFilter
  | anyOf : List String → DeptFilter
deriving DecidableEq, Repr

/-- The recipient query built by `buildRecipientQuery` / adjusted by
`sendNotificationNow`: `{ isActive: true }` plus optional `role`,
`department` and `level` restrictions. -/
structure RecipientQuery where
  isActive : Bool := true
  role : RoleFilter := .any
  department : Option DeptFilter := none
  level : Option (List Int) := none
deriving DecidableEq, Repr

/-- The staff role list used for `staffOnly` targeting in
controller/notification.js. -/
def staffRoleList : List String :=
  ["lecturer", "hod", "levelAdviser", "dean", "subDean", "facultyOfficer", "admin"]

/-- The roles logic at the top of `buildRecipientQuery` (lines 24-32):
an explicit non-empty `target.roles` wins, else `studentsOnly`/`staffOnly`. -/
def roleNarrow (t : Target) : RoleFilter :=
  if t.roles ≠ [] then .anyOf t.roles
  else if t.studentsOnly ∧ ¬ t.staffOnly then .one "student"
  else if t.staffOnly ∧ ¬ t.studentsOnly then .anyOf staffRoleList
  else .any

/-- The sender document as selected in `sendNotificationNow`
(only the `department` field matters to the recipient query). -/
structure SenderDoc where
  department : Option String := none
deriving DecidableEq, Repr

/-- JS truthiness of `sender?.department` (absent or `""` is falsy). -/
def senderDeptTruthy : Option String → Bool
  | none => false
  | some d => d ≠ ""

/-- Department-scoped sender roles (lower-case), line 42 of
controller/notification.js. -/
def deptScoped : List String := ["lecturer", "hod", "leveladviser"]

/-- `buildRecipientQuery` from controller/notification.js lines 20-54:
base `{isActive: true}`; roles narrowing; early return on `target.all`;
department narrowing (explicit list else sender's own department for
department-scoped roles); level narrowing. -/
def buildRecipientQuery (sender : SenderDoc) (senderRole : String) (t : Target) :
    RecipientQuery :=
  let q : RecipientQuery := { role := roleNarrow t }
  if t.all then q
  else
    let q :=
      if t.departments ≠ [] then
        let depts := (t.departments.map normalizeDept).filter (fun d => d ≠ "")
        if depts ≠ [] then { q with department := some (.anyOf depts) } else q
      else
        if deptScoped.contains (normalizeRole senderRole) ∧
            senderDeptTruthy sender.department then
          { q with department := some (.one (normalizeDept (sender.department.getD ""))) }
        else q
    if t.levels ≠ [] then { q with level := some t.levels } else q

/-- The recipient query actually used by delivery: `sendNotificationNow`
(lines 93-96) takes `buildRecipientQuery`'s result and then overrides
`q.role` whenever `target.studentsOnly` (or else `target.staffOnly`)
is truthy. -/
def deliveryQuery (sender : SenderDoc) (senderRole : String) (t : Target) :
    RecipientQuery :=
  let q := buildRecipientQuery sender senderRole t
  if t.studentsOnly then { q with role := .one "student" }
  else if t.staffOnly then { q with role := .anyOf staffRoleList }
  else q

/-- The raw `scheduledAt` value supplied to `createNotification`:
absent/falsy (undefined, null, `""`, `false`), a value that `new Date`
fails to parse, or a value parsing to timestamp `t` (milliseconds).
The number `0` parses to timestamp `0`. -/
inductive RawSched where
  | absent : RawSched
  | unparseable : RawSched
  | time : Int → RawSched
deriving DecidableEq, Repr

/-- `parseValidScheduledAt` from controller/notification.js lines 57-64:
`none` for absent or unparseable input, and for a parsed timestamp require
`t > now + 1000` (the code rejects `d.getTime() <= Date.now() + 1000`). -/
def parseValidScheduledAt (raw : RawSched) (now : Int) : Option Int :=
  match raw with
  | .absent => none
  | .unparseable => none
  | .time t => if t ≤ now + 1000 then none else some t

/-- Outcome of the scheduling decision in `createNotification`
(lines 261-294): status, stored scheduledAt, HTTP status of the response,
and whether `sendNotificationNow` is invoked immediately. -/
structure CreateDecision where
  status : String
  scheduledAt : Option Int
  httpStatus : Nat
  sentNow : Bool
deriving DecidableEq, Repr

/-- The scheduling slice of `createNotification`: an invalid or missing
`scheduledAt` only triggers a console warning; the notification is created
with status `queued` and sent immediately, and the response is 201 either
way. A valid future `scheduledAt` gives status `scheduled` and defers. -/
def createScheduleDecision (raw : RawSched) (now : Int) : CreateDecision :=
  match parseValidScheduledAt raw now with
  | some t => { status := "scheduled", scheduledAt := some t, httpStatus := 201, sentNow := false }
  | none => { status := "queued", scheduledAt := none, httpStatus := 201, sentNow := true }

/-- C6: with `target.all` set, `buildRecipientQuery` returns right after the
roles logic: the query is the active-user base filter plus the role
narrowing, with no department and no level restriction, whatever
`target.departments` and `target.levels` contain. -/
theorem all_target_skips_dept_and_level (sender : SenderDoc) (senderRole : String)
    (t : Target) (h : t.all = true) :
    buildRecipientQuery sender senderRole t =
      { isActive := true, role := roleNarrow t, department := none, level := none } := by
  simp [buildRecipientQuery, h]

/-- C6 witness: the spec's own example, `target = {all: true,
departments: ["physics"], levels: [400]}`. -/
theorem all_target_skips_dept_and_level_witness :
    buildRecipientQuery { department := some "maths" } "lecturer"
        { all := true, departments := ["physics"], levels := [400] } =
      { isActive := true,
        role := roleNarrow { all := true, departments := ["physics"], levels := [400] },
        department := none, level := none } :=
  all_target_skips_dept_and_level { department := some "maths" } "lecturer"
    { all := true, departments := ["physics"], levels := [400] } rfl

/-- C1 counterexample: a target with the non-empty roles allow-list
`["lecturer"]` and `studentsOnly = true`. The delivery-time override in
`sendNotificationNow` replaces the role filter with `"student"`, so the
filter used by delivery is not the explicit allow-list. -/
theorem roles_allowlist_not_delivery_filter :
    (deliveryQuery { department := none } "dean"
        { roles := ["lecturer"], studentsOnly := true }).role ≠
      RoleFilter.anyOf ["lecturer"] := by
  decide

/-- The department and level steps of `buildRecipientQuery` never touch the
role field: the role of the returned query is always `roleNarrow t`. -/
theorem buildRecipientQuery_role_eq (sender : SenderDoc) (senderRole : String)
    (t : Target) : (buildRecipientQuery sender senderRole t).role = roleNarrow t := by
  unfold buildRecipientQuery
  dsimp only
  split_ifs <;> rfl

/-- C1 amended: for a target with a non-empty roles list, the recipient
filter used by delivery restricts role to exactly that list only when
neither `studentsOnly` nor `staffOnly` is set; a truthy `studentsOnly`
overrides the role filter to `"student"` and otherwise a truthy `staffOnly`
overrides it to the staff role list. -/
theorem roles_allowlist_delivery_filter (sender : SenderDoc) (senderRole : String)
    (t : Target) (h : t.roles ≠ []) :
    (deliveryQuery sender senderRole t).role =
      (if t.studentsOnly then RoleFilter.one "student"
       else if t.staffOnly then RoleFilter.anyOf staffRoleList
       else RoleFilter.anyOf t.roles) := by
  by_cases hs : t.studentsOnly
  · simp [deliveryQuery, hs]
  · by_cases hf : t.staffOnly
    · simp [deliveryQuery, hs, hf]
    · simp only [deliveryQuery, hs, hf, if_false, Bool.false_eq_true, if_neg]
      rw [buildRecipientQuery_role_eq]
      simp [roleNarrow, h, hs, hf]

/-- C1 amended, witness: roles = ["lecturer"], both booleans false. -/
theorem roles_allowlist_delivery_filter_witness :
    (deliveryQuery { department := none } "dean" { roles := ["lecturer"] }).role =
      (if ({ roles := ["lecturer"] } : Target).studentsOnly then RoleFilter.one "student"
       else if ({ roles := ["lecturer"] } : Target).staffOnly then RoleFilter.anyOf staffRoleList
       else RoleFilter.anyOf (Target.roles { roles := ["lecturer"] })) :=
  roles_allowlist_delivery_filter { department := none } "dean" { roles := ["lecturer"] }
    (by decide)

/-- C5: a supplied `scheduledAt` is honored (status `scheduled`, delivery
deferred, the parsed timestamp stored) exactly when it parses to a
timestamp strictly more than one second after `now`; every other value
yields an immediate send (status `queued`, delivery invoked now) and the
request still succeeds with HTTP 201 — no error is raised. -/
theorem scheduledAt_honored_iff_future (raw : RawSched) (now : Int) :
    ((createScheduleDecision raw now).status = "scheduled" ↔
      ∃ t, raw = RawSched.time t ∧ now + 1000 < t)
    ∧ (createScheduleDecision raw now).httpStatus = 201
    ∧ ((createScheduleDecision raw now).sentNow = true ↔
        (createScheduleDecision raw now).status = "queued")
    ∧ ((createScheduleDecision raw now).status = "scheduled" ∨
        (createScheduleDecision raw now).status = "queued") := by
  match raw with
  | .absent =>
    refine ⟨?_, rfl, ⟨fun _ => rfl, fun _ => rfl⟩, Or.inr rfl⟩
    constructor
    · intro hc; simp [createScheduleDecision, parseValidScheduledAt] at hc
    · rintro ⟨t', ht', _⟩; cases ht'
  | .unparseable =>
    refine ⟨?_, rfl, ⟨fun _ => rfl, fun _ => rfl⟩, Or.inr rfl⟩
    constructor
    · intro hc; simp [createScheduleDecision, parseValidScheduledAt] at hc
    · rintro ⟨t', ht', _⟩; cases ht'
  | .time t =>
    by_cases h : t ≤ now + 1000
    · have hd : createScheduleDecision (.time t) now =
          { status := "queued", scheduledAt := none, httpStatus := 201, sentNow := true } := by
        simp [createScheduleDecision, parseValidScheduledAt, h]
      rw [hd]
      refine ⟨?_, rfl, ⟨fun _ => rfl, fun _ => rfl⟩, Or.inr rfl⟩
      constructor
      · intro hc; exact absurd hc (by decide)
      · rintro ⟨t', ht', hlt⟩
        cases ht'
        exact ((by omega : False)).elim
    · have hd : createScheduleDecision (.time t) now =
          { status := "scheduled", scheduledAt := some t, httpStatus := 201, sentNow := false } := by
        simp [createScheduleDecision, parseValidScheduledAt, h]
      rw [hd]
      refine ⟨?_, rfl, ⟨fun hc => by simp at hc, fun hc => by simp at hc⟩, Or.inl rfl⟩
      constructor
      · intro _; exact ⟨t, rfl, by omega⟩
      · intro _; rfl

/-- The raw `target` object of a createNotification request body. Each field
is `none` when the key is absent (so `Object.keys(target).length` counts the
`some` fields). -/
structure RawTarget where
  all : Option Bool := none
  roles : Option (List String) := none
  studentsOnly : Option Bool := none
  staffOnly : Option Bool := none
  departments : Option (List String) := none
  levels : Option (List Int) := none
deriving DecidableEq, Repr

/-- `Object.keys(target).length === 0`: no key is present. -/
def RawTarget.hasNoKeys (t : RawTarget) : Bool :=
  t.all.isNone && t.roles.isNone && t.studentsOnly.isNone && t.staffOnly.isNone &&
    t.departments.isNone && t.levels.isNone

/-- `!Array.isArray(target.levels) || target.levels.length === 0`. -/
def RawTarget.levelsMissing (t : RawTarget) : Bool :=
  match t.levels with
  | none => true
  | some l => l.isEmpty

/-- JS truthiness of `sender.level` (absent or `0` is falsy). -/
def levelTruthy : Option Int → Bool
  | none => false
  | some l => l ≠ 0

/-- `staffRolesNoDeptAllowed` from createNotification (line 246),
compared against the already-lower-cased sender role. -/
def staffRolesNoDeptAllowed : List String := ["dean", "subdean", "admin"]

/-- `ALLOWED_SENDER_ROLES` from createNotification (line 235). -/
def allowedSenderRoles : List String :=
  ["lecturer", "hod", "leveladviser", "dean", "subdean", "facultyofficer", "admin"]

/-- The target-defaulting slice of `createNotification`
(controller/notification.js lines 240-259), in source order:
1. levelAdviser default level: a sender with normalized role
   `leveladviser`, missing/empty `target.levels` and a truthy recorded
   level gets `target.levels = [sender.level]`;
2. empty-target default: if (after step 1) the target has no keys,
   dean/subdean/admin get `{all: true, studentsOnly: true}` and every
   other sender gets `{studentsOnly: true}`;
3. department normalization when a non-empty list was supplied. -/
def applyTargetDefaults (senderRoleNorm : String) (senderLevel : Option Int)
    (t0 : RawTarget) : RawTarget :=
  let t1 :=
    if senderRoleNorm = "leveladviser" ∧ t0.levelsMissing ∧ levelTruthy senderLevel then
      { t0 with levels := some [senderLevel.getD 0] }
    else t0
  let t2 :=
    if t1.hasNoKeys then
      if staffRolesNoDeptAllowed.contains senderRoleNorm then
        { t1 with all := some true, studentsOnly := some true }
      else
        { t1 with studentsOnly := some true }
    else t1
  match t2.departments with
  | some ds =>
      if ds ≠ [] then
        { t2 with departments := some ((ds.map normalizeDept).filter (fun d => d ≠ "")) }
      else t2
  | none => t2

/-- C2 counterexample: a levelAdviser with recorded level 300 who supplies
no target at all. The levelAdviser level-default runs first and fills
`target.levels = [300]`, so the target is no longer empty and the
`{studentsOnly: true}` default is skipped: the defaulted target is
`{levels: [300]}`, not `{studentsOnly: true}`. -/
theorem leveladviser_empty_target_not_studentsOnly :
    applyTargetDefaults "leveladviser" (some 300) {} = { levels := some [300] }
    ∧ (applyTargetDefaults "leveladviser" (some 300) {}).studentsOnly ≠ some true := by
  constructor
  · rfl
  · decide

/-- C2 amended: for any sender who supplies no target at all, the defaulted
target is `{all: true, studentsOnly: true}` for normalized roles dean,
subdean and admin; `{levels: [senderLevel]}` for a levelAdviser with a
truthy recorded level (the level default fires first and suppresses the
empty-target default); and `{studentsOnly: true}` for every other sender. -/
theorem empty_target_defaults (r : String) (l : Option Int) :
    applyTargetDefaults r l {} =
      (if staffRolesNoDeptAllowed.contains r then
        { all := some true, studentsOnly := some true }
      else if r = "leveladviser" ∧ levelTruthy l then
        { levels := some [l.getD 0] }
      else
        { studentsOnly := some true }) := by
  by_cases h1 : r = "leveladviser"
  · subst h1
    have hc : "leveladviser" ∉ staffRolesNoDeptAllowed := by decide
    by_cases h2 : levelTruthy l
    · simp [applyTargetDefaults, RawTarget.levelsMissing, RawTarget.hasNoKeys, h2, hc]
    · simp [applyTargetDefaults, RawTarget.levelsMissing, RawTarget.hasNoKeys, h2, hc]
  · by_cases hd : r ∈ staffRolesNoDeptAllowed
    · simp [applyTargetDefaults, RawTarget.levelsMissing, RawTarget.hasNoKeys, h1, hd]
    · simp [applyTargetDefaults, RawTarget.levelsMissing, RawTarget.hasNoKeys, h1, hd]

/-- User ids (Mongo `_id`s of User documents). -/
abbrev UserId := Nat

/-- The JS `Set`-based dedupe pass of `sendNotificationNow`
(lines 110-117): keep the first occurrence of each id. -/
def dedupe : List UserId → List UserId := go []
where
  go (seen : List UserId) : List UserId → List UserId
    | [] => []
    | x :: xs => if seen.contains x then go seen xs else x :: go (x :: seen) xs

/-- Observable steps of one `sendNotificationNow` run, in program order:
a successful save of the freshly assigned item list (line 104), a swallowed
save failure (lines 105-107), a push to one recipient (line 138), a push to
a role channel (line 158), the best-effort `deliveredAt` update (line 174)
and the finalizing save (lines 186-192). -/
inductive DeliveryEv where
  | persistItems : List UserId → DeliveryEv
  | persistFailed : DeliveryEv
  | emitUser : UserId → DeliveryEv
  | emitRole : String → DeliveryEv
  | setDeliveredAt : List UserId → DeliveryEv
  | finalize : List UserId → DeliveryEv
deriving DecidableEq, Repr

/-- Result of one `sendNotificationNow` run: the durable DeliveryItem user
list after the run (the finalizing save persists the in-memory `items`
field even when the line-104 save failed) and the ordered event trace. -/
structure SendOutcome where
  dbItems : List UserId
  events : List DeliveryEv
  recipientsCount : Nat
deriving DecidableEq, Repr

/-- `sendNotificationNow` from controller/notification.js lines 70-206,
over user ids. `db` is the User collection (`_id`s), `storedItems` the
notification's pre-existing `items` user list, `matchesQuery` the recipient
query predicate, `persistOk` whether the line-104 save succeeds (its
failure is caught and only logged). With non-empty `storedItems` (lines
78-81) recipients come from `User.find({_id: {$in: userIds}})` and `items`
is not rewritten; otherwise (lines 82-107) recipients come from the
recipient query and `notification.items` is assigned the *pre-dedupe*
recipient list before the dedupe pass runs. -/
def sendNotificationNowModel (db : List UserId) (storedItems : List UserId)
    (matchesQuery : UserId → Bool) (persistOk : Bool) (targetRoles : List String) :
    SendOutcome :=
  if storedItems ≠ [] then
    let recipients0 := db.filter (fun u => storedItems.contains u)
    let recipients := dedupe recipients0
    { dbItems := storedItems
      events := recipients.map DeliveryEv.emitUser ++ targetRoles.map DeliveryEv.emitRole
        ++ (if recipients ≠ [] then [DeliveryEv.setDeliveredAt recipients] else [])
        ++ [DeliveryEv.finalize storedItems]
      recipientsCount := recipients.length }
  else
    let recipients0 := db.filter matchesQuery
    let recipients := dedupe recipients0
    { dbItems := recipients0
      events := (if persistOk then [DeliveryEv.persistItems recipients0]
          else [DeliveryEv.persistFailed])
        ++ recipients.map DeliveryEv.emitUser ++ targetRoles.map DeliveryEv.emitRole
        ++ (if recipients ≠ [] then [DeliveryEv.setDeliveredAt recipients] else [])
        ++ [DeliveryEv.finalize recipients0]
      recipientsCount := recipients.length }

/-- `true` iff no fan-out push (to a user or a role channel) occurs before
a completed item-list persist in the trace. -/
def persistedBeforeFanout : List DeliveryEv → Bool
  | [] => true
  | .persistItems _ :: _ => true
  | .emitUser _ :: _ => false
  | .emitRole _ :: _ => false
  | _ :: rest => persistedBeforeFanout rest

/-- C3 counterexample: one active user, target-based resolution, and the
item-list save of line 104 throws. The failure is swallowed (lines
105-107) and fan-out proceeds anyway, so a push happens with the item list
unpersisted. -/
theorem fanout_can_precede_persist :
    persistedBeforeFanout
        (sendNotificationNowModel [1] [] (fun _ => true) false []).events = false := by
  decide

/-- C3 amended: for a target-resolved notification, the item-list save is
awaited before any fan-out push, so whenever the save succeeds the
persisted item list (the full pre-dedupe recipient set) is durable before
fan-out begins; only when the save throws is the failure swallowed and
fan-out run with the list unpersisted. -/
theorem persist_completes_before_fanout (db : List UserId)
    (matchesQuery : UserId → Bool) (targetRoles : List String) :
    (sendNotificationNowModel db [] matchesQuery true targetRoles).dbItems
        = db.filter matchesQuery
    ∧ persistedBeforeFanout
        (sendNotificationNowModel db [] matchesQuery true targetRoles).events = true := by
  constructor
  · simp [sendNotificationNowModel]
  · simp [sendNotificationNowModel, persistedBeforeFanout]

/-- C4 counterexample: a notification entering the delivery engine with a
pre-existing duplicated item list `[1, 1]`. The explicit-items branch never
rewrites `notification.items`, and the dedupe pass (lines 110-117) runs
only on the fan-out list after the persist, so the persisted DeliveryItem
list still contains user 1 twice. -/
theorem duplicate_items_stay_persisted :
    (sendNotificationNowModel [1] [1, 1] (fun _ => true) true []).dbItems = [1, 1]
    ∧ ¬ (sendNotificationNowModel [1] [1, 1] (fun _ => true) true []).dbItems.Nodup := by
  constructor
  · rfl
  · decide

/-- C4 amended: for target-resolved notifications the persisted DeliveryItem
list does contain each user at most once — not because of the dedupe pass
(which runs after the persist and only feeds fan-out), but because a single
`User.find` over a collection with distinct `_id`s returns each user once.
A notification entering delivery with duplicate pre-set items keeps the
duplicates. -/
theorem target_resolved_items_nodup (db : List UserId) (matchesQuery : UserId → Bool)
    (persistOk : Bool) (targetRoles : List String) (h : db.Nodup) :
    (sendNotificationNowModel db [] matchesQuery persistOk targetRoles).dbItems.Nodup := by
  simp only [sendNotificationNowModel, ne_eq, not_true_eq_false, if_false]
  exact h.filter _

/-- C4 amended, witness: three distinct users resolved by a query. -/
theorem target_resolved_items_nodup_witness :
    (sendNotificationNowModel [1, 2, 3] [] (fun _ => true) true []).dbItems.Nodup :=
  target_resolved_items_nodup [1, 2, 3] (fun _ => true) true [] (by decide)

/-- One entry of the `connectedUsers` map in config/socket.js: the role
recorded at the latest connection and the set of live socket ids
(insertion-ordered, duplicate-free, as a JS `Set`). -/
structure RegEntry where
  role : String
  sockets : List String
deriving DecidableEq, Repr

/-- The `connectedUsers` map: user id keyed association list. -/
abbrev Registry := List (String × RegEntry)

/-- `connectedUsers.get(uid)`. -/
def lookupReg : Registry → String → Option RegEntry
  | [], _ => none
  | (u, e) :: rest, uid => if u = uid then some e else lookupReg rest uid

/-- `connectedUsers.set(uid, entry)`: replace the entry in place, or append
when absent. -/
def setReg : Registry → String → RegEntry → Registry
  | [], uid, e => [(uid, e)]
  | (u, e0) :: rest, uid, e =>
      if u = uid then (uid, e) :: rest else (u, e0) :: setReg rest uid e

/-- `connectedUsers.delete(uid)`. -/
def removeReg (reg : Registry) (uid : String) : Registry :=
  reg.filter (fun p => p.1 ≠ uid)

/-- Presence transition broadcast by the disconnect handler. -/
inductive RegEv where
  | offline : String → RegEv
deriving DecidableEq, Repr

/-- The connection-registration block of the `connection` handler
(config/socket.js lines 94-104): create the entry with the connecting
socket when absent, else refresh the stored role and add the socket id to
the set. -/
def register (reg : Registry) (uid role sid : String) : Registry :=
  match lookupReg reg uid with
  | none => (uid, ⟨role, [sid]⟩) :: reg
  | some e =>
      setReg reg uid
        ⟨role, if e.sockets.contains sid then e.sockets else e.sockets ++ [sid]⟩

/-- The `disconnect` handler (config/socket.js lines 118-129): missing
entry is a no-op; otherwise delete the socket id, and when the set becomes
empty delete the entry and broadcast a single `userOffline` event. -/
def unregister (reg : Registry) (uid sid : String) : Registry × List RegEv :=
  match lookupReg reg uid with
  | none => (reg, [])
  | some e =>
      let s := e.sockets.erase sid
      if s.isEmpty then (removeReg reg uid, [.offline uid])
      else (setReg reg uid ⟨e.role, s⟩, [])

/-- No registry entry has an empty connection set. -/
def GoodReg (reg : Registry) : Prop := ∀ p ∈ reg, p.2.sockets ≠ []

/-- A connect or disconnect event, as applied to the registry. -/
inductive RegOp where
  | connect : String → String → String → RegOp
  | disconnect : String → String → RegOp
deriving DecidableEq, Repr

/-- Apply one connection event to the registry. -/
def applyRegOp (reg : Registry) : RegOp → Registry
  | .connect uid role sid => register reg uid role sid
  | .disconnect uid sid => (unregister reg uid sid).1

/-- The registry reached from process start (empty map) after a sequence of
connect/disconnect events. -/
def runRegOps (ops : List RegOp) : Registry := ops.foldl applyRegOp []

theorem lookupReg_mem {reg : Registry} {uid : String} {e : RegEntry}
    (h : lookupReg reg uid = some e) : (uid, e) ∈ reg := by
  induction reg with
  | nil => simp [lookupReg] at h
  | cons p rest ih =>
    obtain ⟨u, e0⟩ := p
    by_cases hu : u = uid
    · subst hu
      simp [lookupReg] at h
      subst h
      exact List.mem_cons_self _ _
    · simp [lookupReg, hu] at h
      exact List.mem_cons_of_mem _ (ih h)

theorem lookupReg_setReg_self (reg : Registry) (uid : String) (e : RegEntry) :
    lookupReg (setReg reg uid e) uid = some e := by
  induction reg with
  | nil => simp [setReg, lookupReg]
  | cons p rest ih =>
    obtain ⟨u, e0⟩ := p
    by_cases hu : u = uid
    · subst hu
      simp [setReg, lookupReg]
    · simp [setReg, lookupReg, hu, ih]

theorem lookupReg_removeReg_self (reg : Registry) (uid : String) :
    lookupReg (removeReg reg uid) uid = none := by
  induction reg with
  | nil => rfl
  | cons p rest ih =>
    obtain ⟨u, e0⟩ := p
    by_cases hu : u = uid
    · subst hu
      simpa [removeReg, lookupReg] using ih
    · simpa [removeReg, lookupReg, hu] using ih

theorem mem_setReg {reg : Registry} {uid : String} {e : RegEntry}
    {p : String × RegEntry} (h : p ∈ setReg reg uid e) : p ∈ reg ∨ p = (uid, e) := by
  induction reg with
  | nil => simpa [setReg] using h
  | cons q rest ih =>
    obtain ⟨u, e0⟩ := q
    by_cases hu : u = uid
    · subst hu
      simp [setReg] at h
      rcases h with h | h
      · exact Or.inr (by simp [h])
      · exact Or.inl (List.mem_cons_of_mem _ h)
    · simp [setReg, hu] at h
      rcases h with h | h
      · exact Or.inl (by simp [h])
      · rcases ih h with h' | h'
        · exact Or.inl (List.mem_cons_of_mem _ h')
        · exact Or.inr h'

theorem GoodReg_register {reg : Registry} (hg : GoodReg reg)
    (uid role sid : String) : GoodReg (register reg uid role sid) := by
  unfold register
  cases hlook : lookupReg reg uid with
  | none =>
    intro p hp
    rcases List.mem_cons.mp hp with h | h
    · subst h; simp
    · exact hg p h
  | some e =>
    dsimp only
    intro p hp
    rcases mem_setReg hp with h | h
    · exact hg p h
    · subst h
      have he : e.sockets ≠ [] := hg _ (lookupReg_mem hlook)
      dsimp only
      by_cases hc : e.sockets.contains sid = true
      · rw [if_pos hc]
        exact he
      · rw [if_neg hc]
        intro hnil
        exact List.cons_ne_nil _ _ (List.append_eq_nil.mp hnil).2

theorem GoodReg_unregister {reg : Registry} (hg : GoodReg reg)
    (uid sid : String) : GoodReg (unregister reg uid sid).1 := by
  unfold unregister
  cases hlook : lookupReg reg uid with
  | none => exact hg
  | some e =>
    dsimp only
    by_cases hemp : (e.sockets.erase sid).isEmpty = true
    · rw [if_pos hemp]
      intro p hp
      exact hg p (List.mem_of_mem_filter hp)
    · rw [if_neg hemp]
      intro p hp
      rcases mem_setReg hp with h | h
      · exact hg p h
      · subst h
        intro hnil
        have hnil2 : e.sockets.erase sid = [] := hnil
        exact hemp (by rw [hnil2]; rfl)

theorem GoodReg_runRegOps (ops : List RegOp) : GoodReg (runRegOps ops) := by
  have main : ∀ (l : List RegOp) (reg : Registry), GoodReg reg →
      GoodReg (l.foldl applyRegOp reg) := by
    intro l
    induction l with
    | nil => intro reg hg; exact hg
    | cons op rest ih =>
      intro reg hg
      refine ih _ ?_
      cases op with
      | connect uid role sid => exact GoodReg_register hg uid role sid
      | disconnect uid sid => exact GoodReg_unregister hg uid sid
  exact main ops [] (by intro p hp; cases hp)

/-- C7: in the connection registry, (1) unregistering the last remaining
connection of a user deletes the user's entry and broadcasts exactly one
offline transition; (2) unregistering one of at least two connections
keeps the entry, with the remaining connections and the same role, and
broadcasts nothing; (3) consequently, starting from the empty registry, no
reachable registry state has an entry with an empty connection set. -/
theorem connection_registry_churn :
    (∀ (reg : Registry) (uid sid : String) (e : RegEntry),
      lookupReg reg uid = some e → e.sockets = [sid] →
        lookupReg (unregister reg uid sid).1 uid = none
        ∧ (unregister reg uid sid).2 = [RegEv.offline uid])
    ∧ (∀ (reg : Registry) (uid sid : String) (e : RegEntry),
      lookupReg reg uid = some e → sid ∈ e.sockets → 2 ≤ e.sockets.length →
        lookupReg (unregister reg uid sid).1 uid
            = some ⟨e.role, e.sockets.erase sid⟩
        ∧ e.sockets.erase sid ≠ []
        ∧ (unregister reg uid sid).2 = [])
    ∧ (∀ (ops : List RegOp) (p : String × RegEntry),
        p ∈ runRegOps ops → p.2.sockets ≠ []) := by
  refine ⟨?_, ?_, ?_⟩
  · intro reg uid sid e hlook hone
    have hval : e.sockets.erase sid = [] := by rw [hone]; simp
    have hemp : (e.sockets.erase sid).isEmpty = true := by rw [hval]; rfl
    unfold unregister
    rw [hlook]
    dsimp only
    rw [if_pos hemp]
    exact ⟨lookupReg_removeReg_self reg uid, rfl⟩
  · intro reg uid sid e hlook hmem hlen
    have hne : e.sockets.erase sid ≠ [] := by
      have hl := List.length_erase_of_mem hmem
      intro hnil
      rw [hnil] at hl
      simp at hl
      omega
    have hemp : ¬ (e.sockets.erase sid).isEmpty = true := by
      intro habs
      exact hne (List.isEmpty_iff.mp habs)
    unfold unregister
    rw [hlook]
    dsimp only
    rw [if_neg hemp]
    exact ⟨lookupReg_setReg_self reg uid _, hne, rfl⟩
  · intro ops p hp
    exact GoodReg_runRegOps ops p hp

/-- C7 witness: user `"u"` registers sockets `"s1"` and `"s2"`; closing
`"s1"` keeps the entry with `["s2"]` and emits nothing, and closing the
only socket of user `"v"` deletes `"v"`'s entry and emits one offline
event; the two-step run from the empty registry has no empty entry. -/
theorem connection_registry_churn_witness :
    (lookupReg (unregister [("v", ⟨"student", ["s3"]⟩)] "v" "s3").1 "v" = none
      ∧ (unregister [("v", ⟨"student", ["s3"]⟩)] "v" "s3").2 = [RegEv.offline "v"])
    ∧ (lookupReg (unregister [("u", ⟨"student", ["s1", "s2"]⟩)] "u" "s1").1 "u"
          = some ⟨"student", (["s1", "s2"] : List String).erase "s1"⟩
      ∧ (["s1", "s2"] : List String).erase "s1" ≠ []
      ∧ (unregister [("u", ⟨"student", ["s1", "s2"]⟩)] "u" "s1").2 = []) :=
  ⟨connection_registry_churn.1 [("v", ⟨"student", ["s3"]⟩)] "v" "s3"
      ⟨"student", ["s3"]⟩ (by decide) (by decide),
   connection_registry_churn.2.1 [("u", ⟨"student", ["s1", "s2"]⟩)] "u" "s1"
      ⟨"student", ["s1", "s2"]⟩ (by decide) (by decide) (by decide)⟩

/-- A stored notification as the scheduler sees it: id, status and the
`meta.lastError` slot. -/
structure SchedNotif where
  id : Nat
  status : String
  lastError : Option String
deriving DecidableEq, Repr

/-- The Notification collection, as a list of documents. -/
abbrev NotifStore := List SchedNotif

/-- `Notification.findById(i)`: first document with that id. -/
def storeFind : NotifStore → Nat → Option SchedNotif
  | [], _ => none
  | n :: rest, i => if n.id = i then some n else storeFind rest i

/-- Persist an update of document `i` (both `save()` after a field change
and `findByIdAndUpdate`). -/
def storeUpdate : NotifStore → Nat → (SchedNotif → SchedNotif) → NotifStore
  | [], _, _ => []
  | n :: rest, i, f => (if n.id = i then f n else n) :: storeUpdate rest i f

/-- Status/metadata updates the scheduler and delivery engine write on a
notification document (the `id` is never changed). -/
def setSending (n : SchedNotif) : SchedNotif := { n with status := "sending" }

/-- Mark a notification failed with the thrown error recorded
(`findByIdAndUpdate(doc._id, { status: "failed", "meta.lastError": String(err) })`). -/
def setFailed (err : String) (n : SchedNotif) : SchedNotif :=
  { n with status := "failed", lastError := some err }

/-- The finalization `sendNotificationNow` performs on success. -/
def setCompleted (n : SchedNotif) : SchedNotif := { n with status := "completed" }

/-- The per-item body of the scheduler tick
(scheduler/notificationSchedule.js lines 26-41): re-load the document
(skip when gone), set status `sending` and save, then deliver.
`deliverThrows i = some err` models a throw inside the per-item `try`
(the local catch then marks the notification `failed` and records the
error); `none` models a delivery that completes, in which case
`sendNotificationNow` finalizes the status to `completed`. -/
def processDueItem (deliverThrows : Nat → Option String) (st : NotifStore) (i : Nat) :
    NotifStore :=
  match storeFind st i with
  | none => st
  | some _ =>
    let st1 := storeUpdate st i setSending
    match deliverThrows i with
    | some err => storeUpdate st1 i (setFailed err)
    | none => storeUpdate st1 i setCompleted

/-- One scheduler tick over the batch of due notification ids: the loop
with a per-item try/catch, so every item is processed regardless of
earlier failures. -/
def schedulerTick (deliverThrows : Nat → Option String) (st : NotifStore)
    (due : List Nat) : NotifStore :=
  due.foldl (processDueItem deliverThrows) st

theorem storeFind_update_ne (st : NotifStore) (f : SchedNotif → SchedNotif)
    (i j : Nat) (hij : i ≠ j) (hid : ∀ n, (f n).id = n.id) :
    storeFind (storeUpdate st j f) i = storeFind st i := by
  induction st with
  | nil => rfl
  | cons n rest ih =>
    have hji : ¬ j = i := fun hh => hij hh.symm
    by_cases hn : n.id = j
    · have h1 : ¬ (f n).id = i := by rw [hid n, hn]; omega
      have h2 : ¬ n.id = i := by rw [hn]; omega
      simp [storeFind, storeUpdate, hn, h1, h2, hji, ih]
    · by_cases h2 : n.id = i
      · simp [storeFind, storeUpdate, hn, h2, hij]
      · simp [storeFind, storeUpdate, hn, h2, ih]

theorem storeFind_update_eq (st : NotifStore) (f : SchedNotif → SchedNotif)
    (i : Nat) (hid : ∀ n, (f n).id = n.id) :
    storeFind (storeUpdate st i f) i = (storeFind st i).map f := by
  induction st with
  | nil => rfl
  | cons n rest ih =>
    by_cases hn : n.id = i
    · have h1 : (f n).id = i := by rw [hid n]; exact hn
      simp [storeFind, storeUpdate, hn, h1]
    · simp [storeFind, storeUpdate, hn, ih]

theorem storeFind_processDueItem_ne (o : Nat → Option String) (st : NotifStore)
    (i j : Nat) (hij : i ≠ j) :
    storeFind (processDueItem o st j) i = storeFind st i := by
  unfold processDueItem
  cases hfind : storeFind st j with
  | none => rfl
  | some n =>
    cases horj : o j with
    | some err =>
      dsimp only
      rw [storeFind_update_ne _ (setFailed err) i j hij (fun m => rfl),
        storeFind_update_ne _ setSending i j hij (fun m => rfl)]
    | none =>
      dsimp only
      rw [storeFind_update_ne _ setCompleted i j hij (fun m => rfl),
        storeFind_update_ne _ setSending i j hij (fun m => rfl)]

theorem storeFind_processDueItem_eq (o : Nat → Option String) (st : NotifStore)
    (i : Nat) (n : SchedNotif) (hfind : storeFind st i = some n) :
    storeFind (processDueItem o st i) i =
      some (match o i with
        | some err => { n with status := "failed", lastError := some err }
        | none => { n with status := "completed" }) := by
  unfold processDueItem
  rw [hfind]
  cases horj : o i with
  | some err =>
    dsimp only
    rw [storeFind_update_eq _ (setFailed err) i (fun m => rfl),
      storeFind_update_eq _ setSending i (fun m => rfl), hfind]
    rfl
  | none =>
    dsimp only
    rw [storeFind_update_eq _ setCompleted i (fun m => rfl),
      storeFind_update_eq _ setSending i (fun m => rfl), hfind]
    rfl

theorem storeFind_tick_not_mem (o : Nat → Option String) (due : List Nat)
    (i : Nat) (hni : i ∉ due) :
    ∀ st, storeFind (schedulerTick o st due) i = storeFind st i := by
  induction due with
  | nil => intro st; rfl
  | cons j rest ih =>
    intro st
    have hij : i ≠ j := fun hh => hni (by rw [hh]; exact List.mem_cons_self j rest)
    have hrest : i ∉ rest := fun hh => hni (List.mem_cons_of_mem _ hh)
    have h1 := ih hrest (processDueItem o st j)
    have h2 := storeFind_processDueItem_ne o st i j hij
    exact h1.trans h2

/-- C8: in one scheduler tick over a batch of distinct due notification
ids, each notification's final record depends only on its own delivery
outcome: an item whose delivery throws ends `failed` with the error in its
metadata, an item that delivers ends `completed` — regardless of failures
of other items in the batch, since the per-item catch keeps the loop
going. -/
theorem scheduler_tick_isolation (o : Nat → Option String) (st : NotifStore)
    (due : List Nat) (hnd : due.Nodup) (i : Nat) (hi : i ∈ due)
    (n : SchedNotif) (hfind : storeFind st i = some n) :
    storeFind (schedulerTick o st due) i =
      some (match o i with
        | some err => { n with status := "failed", lastError := some err }
        | none => { n with status := "completed" }) := by
  have main : ∀ (l : List Nat), l.Nodup → ∀ (st2 : NotifStore), i ∈ l →
      ∀ m, storeFind st2 i = some m →
      storeFind (schedulerTick o st2 l) i =
        some (match o i with
          | some err => { m with status := "failed", lastError := some err }
          | none => { m with status := "completed" }) := by
    intro l
    induction l with
    | nil =>
      intro _ st2 hmem
      cases hmem
    | cons j rest ih =>
      intro hnd2 st2 hmem m hfind2
      rcases List.mem_cons.mp hmem with hh | hh
      · subst hh
        have hni : i ∉ rest := (List.nodup_cons.mp hnd2).1
        have hstep := storeFind_processDueItem_eq o st2 i m hfind2
        have huntouched := storeFind_tick_not_mem o rest i hni (processDueItem o st2 i)
        exact huntouched.trans hstep
      · have hij : i ≠ j := by
          intro hh2
          subst hh2
          exact (List.nodup_cons.mp hnd2).1 hh
        have hfind3 : storeFind (processDueItem o st2 j) i = some m :=
          (storeFind_processDueItem_ne o st2 i j hij).trans hfind2
        exact ih (List.nodup_cons.mp hnd2).2 (processDueItem o st2 j) hh m hfind3
  exact main due hnd st hi n hfind

/-- C8 witness: the spec's batch of 3 where the 2nd item throws during
delivery — items 1 and 3 still reach `completed`, item 2 ends `failed`
with the error recorded. -/
theorem scheduler_tick_isolation_witness :
    storeFind (schedulerTick (fun i => if i = 2 then some "boom" else none)
        [⟨1, "scheduled", none⟩, ⟨2, "scheduled", none⟩, ⟨3, "scheduled", none⟩]
        [1, 2, 3]) 1 = some ⟨1, "completed", none⟩
    ∧ storeFind (schedulerTick (fun i => if i = 2 then some "boom" else none)
        [⟨1, "scheduled", none⟩, ⟨2, "scheduled", none⟩, ⟨3, "scheduled", none⟩]
        [1, 2, 3]) 2 = some ⟨2, "failed", some "boom"⟩
    ∧ storeFind (schedulerTick (fun i => if i = 2 then some "boom" else none)
        [⟨1, "scheduled", none⟩, ⟨2, "scheduled", none⟩, ⟨3, "scheduled", none⟩]
        [1, 2, 3]) 3 = some ⟨3, "completed", none⟩ :=
  ⟨scheduler_tick_isolation _ _ _ (by decide) 1 (by decide) ⟨1, "scheduled", none⟩ (by decide),
   scheduler_tick_isolation _ _ _ (by decide) 2 (by decide) ⟨2, "scheduled", none⟩ (by decide),
   scheduler_tick_isolation _ _ _ (by decide) 3 (by decide) ⟨3, "scheduled", none⟩ (by decide)⟩

/-- One embedded DeliveryItem: user reference, read flag,
deliveredAt timestamp. -/
structure DeliveryItemRec where
  user : UserId
  read : Bool
  deliveredAt : Option Int
deriving DecidableEq, Repr

/-- The notification document slice `markAsRead` touches. -/
structure NotifDoc where
  items : List DeliveryItemRec
deriving DecidableEq, Repr

/-- Mongo's positional `$` update in `markAsRead` (line 351): set
`read := true` and `deliveredAt := now` on the first array element whose
`user` matches the query. -/
def setFirstItem (items : List DeliveryItemRec) (uid : UserId) (now : Int) :
    List DeliveryItemRec :=
  match items with
  | [] => []
  | it :: rest =>
    if it.user = uid then { it with read := true, deliveredAt := some now } :: rest
    else it :: setFirstItem rest uid now

/-- Outcome of the `markAsRead` endpoint: HTTP 200 with the updated
document, or the 404 `Notification not found for user` error. -/
inductive MarkReadResult where
  | ok : NotifDoc → MarkReadResult
  | notFound : MarkReadResult
deriving DecidableEq, Repr

/-- `markAsRead` from controller/notification.js lines 342-360: the
`updateOne` filter `{_id, "items.user": uid}` matches iff the notification
exists and carries an item for the user; on a match the positional update
sets `read` and `deliveredAt`, and the handler answers 200; with no match
`matchedCount === 0 && nModified === 0` holds and it answers 404. -/
def markAsRead (ndoc : Option NotifDoc) (uid : UserId) (now : Int) : MarkReadResult :=
  match ndoc with
  | none => .notFound
  | some d =>
    if d.items.any (fun it => it.user = uid) then
      .ok { d with items := setFirstItem d.items uid now }
    else .notFound

theorem any_setFirstItem (items : List DeliveryItemRec) (uid : UserId) (now : Int) :
    (setFirstItem items uid now).any (fun it => it.user = uid)
      = items.any (fun it => it.user = uid) := by
  induction items with
  | nil => rfl
  | cons it rest ih =>
    by_cases h : it.user = uid
    · simp [setFirstItem, h]
    · simp [setFirstItem, h, ih]

theorem find_setFirstItem (items : List DeliveryItemRec) (uid : UserId) (now : Int)
    (h : items.any (fun it => it.user = uid) = true) :
    ∃ it0, items.find? (fun it => it.user = uid) = some it0
      ∧ (setFirstItem items uid now).find? (fun it => it.user = uid)
          = some { it0 with read := true, deliveredAt := some now } := by
  induction items with
  | nil => simp at h
  | cons it rest ih =>
    by_cases hu : it.user = uid
    · refine ⟨it, ?_, ?_⟩
      · simp [List.find?, hu]
      · simp [setFirstItem, hu, List.find?]
    · have h2 : rest.any (fun it => it.user = uid) = true := by
        simpa [hu] using h
      obtain ⟨it0, hf1, hf2⟩ := ih h2
      refine ⟨it0, ?_, ?_⟩
      · simp [List.find?, hu, hf1]
      · simp [setFirstItem, hu, List.find?, hf2]

/-- C9: after a successful `markAsRead` for a (notification, user) pair, a
second call for the same pair succeeds again (the filter still matches, so
`matchedCount` is 1 and no 404 is raised) and the user's item keeps
`read = true`. -/
theorem markAsRead_idempotent (d : NotifDoc) (uid : UserId) (t1 t2 : Int)
    (d1 : NotifDoc) (h : markAsRead (some d) uid t1 = .ok d1) :
    ∃ d2, markAsRead (some d1) uid t2 = .ok d2
      ∧ (d2.items.find? (fun it => it.user = uid)).map DeliveryItemRec.read
          = some true := by
  unfold markAsRead at h
  dsimp only at h
  by_cases hany : d.items.any (fun it => it.user = uid) = true
  · rw [if_pos hany] at h
    have hd1 : d1 = { d with items := setFirstItem d.items uid t1 } := by
      cases h
      rfl
    have hany1 : d1.items.any (fun it => it.user = uid) = true := by
      rw [hd1]
      simpa [any_setFirstItem] using hany
    obtain ⟨it0, hf1, hf2⟩ := find_setFirstItem d1.items uid t2 hany1
    refine ⟨{ d1 with items := setFirstItem d1.items uid t2 }, ?_, ?_⟩
    · unfold markAsRead
      dsimp only
      rw [if_pos hany1]
    · simpa using congrArg (Option.map DeliveryItemRec.read) hf2
  · rw [if_neg hany] at h
    cases h

/-- C9 witness: an item for user 7 marked read at t=3, marked again at
t=9: the second call succeeds and the item is still read. -/
theorem markAsRead_idempotent_witness :
    ∃ d2, markAsRead (some ⟨[⟨7, true, some 3⟩]⟩) 7 9 = .ok d2
      ∧ (d2.items.find? (fun it => it.user = 7)).map DeliveryItemRec.read
          = some true :=
  markAsRead_idempotent ⟨[⟨7, false, none⟩]⟩ 7 3 9 ⟨[⟨7, true, some 3⟩]⟩ (by decide)

/-- C10: every successful `markAsRead` call overwrites the matched item's
`deliveredAt` with the time of the call — whatever its previous value was
(never delivered: `none`; already delivered or already read: any earlier
timestamp) — so after a read `deliveredAt` is the latest read time. -/
theorem markAsRead_overwrites_deliveredAt (d : NotifDoc) (uid : UserId) (t : Int)
    (hany : d.items.any (fun it => it.user = uid) = true) :
    ∃ it0, d.items.find? (fun it => it.user = uid) = some it0
      ∧ markAsRead (some d) uid t = .ok { d with items := setFirstItem d.items uid t }
      ∧ (setFirstItem d.items uid t).find? (fun it => it.user = uid)
          = some { it0 with read := true, deliveredAt := some t } := by
  obtain ⟨it0, hf1, hf2⟩ := find_setFirstItem d.items uid t hany
  refine ⟨it0, hf1, ?_, hf2⟩
  unfold markAsRead
  dsimp only
  rw [if_pos hany]

/-- C10 witness: user 7's item was already read and carries
`deliveredAt = 5`; a read at t=9 rewrites it to 9. -/
theorem markAsRead_overwrites_deliveredAt_witness :
    ∃ it0, (⟨[⟨7, true, some 5⟩]⟩ : NotifDoc).items.find? (fun it => it.user = 7)
        = some it0
      ∧ markAsRead (some ⟨[⟨7, true, some 5⟩]⟩) 7 9
          = .ok { (⟨[⟨7, true, some 5⟩]⟩ : NotifDoc) with
              items := setFirstItem (⟨[⟨7, true, some 5⟩]⟩ : NotifDoc).items 7 9 }
      ∧ (setFirstItem (⟨[⟨7, true, some 5⟩]⟩ : NotifDoc).items 7 9).find?
            (fun it => it.user = 7)
          = some { it0 with read := true, deliveredAt := some 9 } :=
  markAsRead_overwrites_deliveredAt ⟨[⟨7, true, some 5⟩]⟩ 7 9 (by decide)
